import Mathlib

/-!
Shallow embedding of the FLAO/UAO log-analysis program `analyse_uao.py`:
the deduplicating `search`, the `ArbCmd` data model, the three composite
detectors (`detectOffsets`, `detectAcquires`, `detectCompleteObs`) and the
`CompleteObs` metric methods, together with theorems checking the
specification's claims about them.

Modelling conventions:
* Python exceptions are modelled with `Except PyErr`; code that cannot raise
  is embedded as a total function.
* Python `None` is modelled with `Option`; `float` timestamps, coordinates
  and magnitudes with exact rationals (`ℚ`).
* Dynamic attributes that the source adds conditionally (`estimatedMag`,
  `hoBinning`, `hoSpeed`, `intervention`, `wfs`, `mode`, `mag`) are `Option`
  fields; `hasattr` becomes `Option.isSome`.
* The regular expressions used on `PresetAO` argument strings are embedded
  as explicit character-list scanners that reproduce the patterns
  `wfsSpec = (\w+)WFS`, `... = ([-+]?\d*\.\d+|d+)` and `mode = (\w+)`
  (note the source's float pattern really offers a literal `d+` run as its
  second alternative, and `float()` of such a run raises, which the caller's
  handler turns into unset attributes).
-/

/-- Kinds of Python exception the embedded code can raise. -/
inductive PyErr where
  | typeError
  | unboundLocalError
  | attributeError
  | indexError
deriving DecidableEq

/-- Python `x and y` on `bool`-or-`None` values: `None` and `False` are falsy
and are returned as-is, `True and y` returns `y`. -/
def pyAnd : Option Bool → Option Bool → Option Bool
  | some true, y => y
  | some false, _ => some false
  | none, _ => none

/-- The fields shared by atomic and composite commands (class `ArbCmd` and its
subclasses `OffsetSequence`, `ExposureSequence`, `CompleteObs`, plus the
synthesized `Acquire` command).  `cmds` is the sub-command list owned by
`CompleteObs`; `pause`/`resume` are the bounding commands stored by
`OffsetSequence`/`ExposureSequence`. -/
structure ArbCmdF (α : Type) where
  name : String
  args : String := ""
  start_time : Option ℚ := none
  end_time : Option ℚ := none
  success : Option Bool := none
  errstr : String := ""
  estimatedMag : Option ℚ := none
  hoBinning : Option Int := none
  hoSpeed : Option Int := none
  intervention : Option Bool := none
  wfs : Option String := none
  mode : Option String := none
  mag : Option ℚ := none
  cmds : List α := []
  pause : Option α := none
  resume : Option α := none

/-- A command record (atomic or composite). -/
inductive ArbCmd where
  | mk (data : ArbCmdF ArbCmd) : ArbCmd

def ArbCmd.data : ArbCmd → ArbCmdF ArbCmd
  | .mk d => d

def ArbCmd.name (c : ArbCmd) : String := c.data.name

def ArbCmd.args (c : ArbCmd) : String := c.data.args

def ArbCmd.start_time (c : ArbCmd) : Option ℚ := c.data.start_time

def ArbCmd.end_time (c : ArbCmd) : Option ℚ := c.data.end_time

def ArbCmd.success (c : ArbCmd) : Option Bool := c.data.success

def ArbCmd.errstr (c : ArbCmd) : String := c.data.errstr

def ArbCmd.estimatedMag (c : ArbCmd) : Option ℚ := c.data.estimatedMag

def ArbCmd.hoBinning (c : ArbCmd) : Option Int := c.data.hoBinning

def ArbCmd.hoSpeed (c : ArbCmd) : Option Int := c.data.hoSpeed

def ArbCmd.intervention (c : ArbCmd) : Option Bool := c.data.intervention

def ArbCmd.wfs (c : ArbCmd) : Option String := c.data.wfs

def ArbCmd.mode (c : ArbCmd) : Option String := c.data.mode

def ArbCmd.mag (c : ArbCmd) : Option ℚ := c.data.mag

def ArbCmd.cmds (c : ArbCmd) : List ArbCmd := c.data.cmds

def ArbCmd.pause (c : ArbCmd) : Option ArbCmd := c.data.pause

def ArbCmd.resume (c : ArbCmd) : Option ArbCmd := c.data.resume

/-! ### Regex scanners for the `PresetAO` argument patterns -/

/-- `\w` for the ASCII log text: letters, digits and underscore. -/
def isWordChar (c : Char) : Bool := c.isAlphanum || c == '_'

/-- Match `\d*\.\d+` at the start of the input; returns the matched
characters and the rest. -/
def matchFloatCore (cs : List Char) : Option (List Char × List Char) :=
  let p := cs.span Char.isDigit
  match p.2 with
  | '.' :: r2 =>
    let q := r2.span Char.isDigit
    if q.1.isEmpty then none else some (p.1 ++ '.' :: q.1, q.2)
  | _ => none

/-- Match `[-+]?\d*\.\d+` at the start of the input. -/
def matchFloat : List Char → Option (List Char × List Char)
  | [] => none
  | c :: cs =>
    if c == '-' || c == '+' then
      (matchFloatCore cs).map (fun m => (c :: m.1, m.2))
    else matchFloatCore (c :: cs)

/-- Match the (surely unintended) second alternative `d+` of the source's
float pattern: a nonempty run of literal `d` characters. -/
def matchDplus (cs : List Char) : Option (List Char × List Char) :=
  let p := cs.span (fun c => c == 'd')
  if p.1.isEmpty then none else some (p.1, p.2)

/-- The group of the source pattern `([-+]?\d*\.\d+|d+)`, first alternative
tried first, as the regex engine does. -/
def grpFloat (cs : List Char) : Option (List Char × List Char) :=
  (matchFloat cs).orElse (fun _ => matchDplus cs)

/-- Largest `k ≥ 1` such that dropping `k` characters of the word run leaves
a `WFS` prefix: this is where the backtracking greedy `(\w+)WFS` splits. -/
def lastWfsSplitAux (run : List Char) : Nat → Option Nat
  | 0 => none
  | k + 1 =>
    if ("WFS".toList).isPrefixOf (run.drop (k + 1)) then some (k + 1)
    else lastWfsSplitAux run k

def lastWfsSplit (run : List Char) : Option Nat := lastWfsSplitAux run run.length

/-- The group of `(\w+)WFS`: the maximal word-character run must contain a
final `WFS` occurrence (the trailing `WFS` characters are word characters, so
they are part of the run; backtracking keeps the group longest). -/
def grpWfs (cs : List Char) : Option (List Char × List Char) :=
  let p := cs.span isWordChar
  match lastWfsSplit p.1 with
  | some k => some (p.1.take k, (p.1.drop (k + 3)) ++ p.2)
  | none => none

/-- The group of `(\w+)`: a nonempty greedy word-character run. -/
def grpWord (cs : List Char) : Option (List Char × List Char) :=
  let p := cs.span isWordChar
  if p.1.isEmpty then none else some (p.1, p.2)

/-- `re.findall(lit + group, text)[0]`: scan left to right; at each position
where the literal matches and the group then matches, return the group.  The
literals used here are all nonempty, so the empty input never matches. -/
def findGroupAfterLit (lit : List Char)
    (grp : List Char → Option (List Char × List Char)) :
    List Char → Option (List Char)
  | [] => none
  | c :: cs =>
    if lit.isPrefixOf (c :: cs) then
      match grp ((c :: cs).drop lit.length) with
      | some m => some m.1
      | none => findGroupAfterLit lit grp cs
    else findGroupAfterLit lit grp cs

def digitsToNat (ds : List Char) : Nat :=
  ds.foldl (fun a c => a * 10 + (c.toNat - '0'.toNat)) 0

/-- Python `float()` applied to a matched group.  Groups matched by the first
alternative `[-+]?\d*\.\d+` convert exactly; a group matched by the stray
`d+` alternative raises `ValueError` (modelled as `none`, which the caller's
`except` handler turns into unset attributes). -/
def pyFloatCore (cs : List Char) : Option ℚ :=
  let p := cs.span Char.isDigit
  match p.2 with
  | '.' :: r2 =>
    let q := r2.span Char.isDigit
    if q.1.isEmpty || !q.2.isEmpty then none
    else some ((digitsToNat p.1 : ℚ) + (digitsToNat q.1 : ℚ) / ((10 : ℚ) ^ q.1.length))
  | _ => none

def pyFloat : List Char → Option ℚ
  | '-' :: r => (pyFloatCore r).map (fun q => -q)
  | '+' :: r => pyFloatCore r
  | cs => pyFloatCore cs

/-- The five values `ArbCmd.details` extracts from a `PresetAO` argument
string before assigning `self.wfs`, `self.mag`, `self.refX`, `self.refY`,
`self.mode`. -/
structure PresetInfo where
  wfs : String
  mag : ℚ
  refX : ℚ
  refY : ℚ
  mode : String
deriving DecidableEq

/-- The extraction part of `ArbCmd.details` for a `PresetAO`: all five
patterns must match (the source indexes `re.findall(...)[0]`) and the three
numeric groups must convert with `float()`; any failure raises inside the
`try`, so none of the attributes get assigned (`none` here). -/
def presetDetailsParse (argstr : String) : Option PresetInfo := do
  let cs := argstr.toList
  let wfsG ← findGroupAfterLit ("wfsSpec = ".toList) grpWfs cs
  let magG ← findGroupAfterLit ("expectedStarMagnitude = ".toList) grpFloat cs
  let mag ← pyFloat magG
  let refXG ← findGroupAfterLit ("roCoordX = ".toList) grpFloat cs
  let refX ← pyFloat refXG
  let refYG ← findGroupAfterLit ("roCoordY = ".toList) grpFloat cs
  let refY ← pyFloat refYG
  let modeG ← findGroupAfterLit ("mode = ".toList) grpWord cs
  pure ⟨String.mk wfsG, mag, refX, refY, String.mk modeG⟩

/-- `ArbCmd.is_instrument_preset`: `False` for non-`PresetAO` commands;
otherwise it calls `details()` for its side effect of setting `refX`/`refY`
and then tests `self.refX != 0 or self.refY != 0`.  When the argument string
does not parse, `self.refX` was never assigned and the access raises
`AttributeError` (uncaught in `detectCompleteObs`). -/
def ArbCmd.is_instrument_preset (c : ArbCmd) : Except PyErr Bool :=
  if c.name ≠ "PresetAO" then .ok false
  else
    match presetDetailsParse c.args with
    | some d => .ok (decide (d.refX ≠ 0 ∨ d.refY ≠ 0))
    | none => .error .attributeError

/-! ### Metric methods of `CompleteObs` -/

/-- `total_time`: end minus start, `0` when either is unset. -/
def ArbCmd.total_time (c : ArbCmd) : ℚ :=
  match c.end_time, c.start_time with
  | some e, some s => e - s
  | _, _ => 0

def startAONames (c : ArbCmd) : Bool := c.name == "StartAO" || c.name == "Start AO"

def stopNames (c : ArbCmd) : Bool := c.name == "Stop" || c.name == "StopAO"

/-- `setup_duration`: end time of the first `StartAO`/`Start AO` sub-command
minus the composite's start time.  Indexing `[0]` of the filtered list raises
`IndexError` when no such sub-command exists; subtracting a `None` raises
`TypeError`. -/
def ArbCmd.setup_duration (c : ArbCmd) : Except PyErr ℚ :=
  match (c.cmds.filter startAONames).head? with
  | none => .error .indexError
  | some startao =>
    match startao.end_time, c.start_time with
    | some e, some s => .ok (e - s)
    | _, _ => .error .typeError

def interventionNames : List String :=
  ["CenterStar", "CenterPupils", "CheckFlux", "CloseLoop"]

/-- The loop of `ao_setup_overhead`: skip `Acquire`/`Done`, skip sub-commands
with an unset time, skip `AcquireRefAO` when an intervention-class command is
present anywhere, otherwise accumulate the duration; return the accumulator
at the first (timed) `StartAO`/`Start AO`, and `0` when the loop finishes. -/
def aoSetupLoop (isInterv : Bool) : ℚ → List ArbCmd → ℚ
  | _, [] => 0
  | acc, cmd :: rest =>
    if cmd.name == "Acquire" || cmd.name == "Done" then aoSetupLoop isInterv acc rest
    else
      match cmd.end_time, cmd.start_time with
      | some e, some s =>
        if isInterv && cmd.name == "AcquireRefAO" then aoSetupLoop isInterv acc rest
        else if startAONames cmd then acc + (e - s)
        else aoSetupLoop isInterv (acc + (e - s)) rest
      | _, _ => aoSetupLoop isInterv acc rest

/-- `ao_setup_overhead` (total: every exceptional path in the source is
guarded by `continue`s). -/
def ArbCmd.ao_setup_overhead (c : ArbCmd) : ℚ :=
  aoSetupLoop (c.cmds.any (fun x => interventionNames.contains x.name)) 0 c.cmds

/-- `telescope_overhead = setup_duration - ao_setup_overhead`. -/
def ArbCmd.telescope_overhead (c : ArbCmd) : Except PyErr ℚ := do
  let s ← c.setup_duration
  .ok (s - c.ao_setup_overhead)

/-- The loop of `offsets_overhead`.  The first component of the state is the
local variable `pause_time`: `none` while it is still unassigned (reading it
then raises `UnboundLocalError`), `some t` after a `Pause`/`PauseAO` stored
its (possibly `None`) start time; subtracting a `None` raises `TypeError`. -/
def offsetsOverheadLoop : Option (Option ℚ) → ℚ → List ArbCmd → Except PyErr ℚ
  | _, acc, [] => .ok acc
  | pv, acc, c :: rest =>
    let pv' := if c.name == "PauseAO" || c.name == "Pause" then some c.start_time else pv
    if c.name == "ResumeAO" || c.name == "Resume" then
      match pv' with
      | none => .error .unboundLocalError
      | some pt =>
        match c.end_time, pt with
        | some rt, some p => offsetsOverheadLoop pv' (acc + (rt - p)) rest
        | _, _ => .error .typeError
    else offsetsOverheadLoop pv' acc rest

def ArbCmd.offsets_overhead (c : ArbCmd) : Except PyErr ℚ :=
  offsetsOverheadLoop none 0 c.cmds

/-- `total_open_time = total_time - setup_duration - offsets_overhead`
(evaluated in that order, so a `setup_duration` exception surfaces first). -/
def ArbCmd.total_open_time (c : ArbCmd) : Except PyErr ℚ := do
  let s ← c.setup_duration
  let o ← c.offsets_overhead
  .ok (c.total_time - s - o)

/-- `total_ao_overhead = ao_setup_overhead + offsets_overhead`. -/
def ArbCmd.total_ao_overhead (c : ArbCmd) : Except PyErr ℚ := do
  let o ← c.offsets_overhead
  .ok (c.ao_setup_overhead + o)

/-- The numeric cells of the per-observation CSV row built by
`update_output_csv` for one `CompleteObs` (string rendering and the
day/hour columns are outside the model): total, open, setup, aosetup,
telsetup, offsets.  The source wraps none of these calls in a handler, so
any exception propagates out of the writer. -/
def observationRow (c : ArbCmd) : Except PyErr (ℚ × ℚ × ℚ × ℚ × ℚ × ℚ) := do
  let tottime := c.total_time
  let opentime ← c.total_open_time
  let setuptime ← c.setup_duration
  let aosetuptime := c.ao_setup_overhead
  let telsetuptime ← c.telescope_overhead
  let offsetstime ← c.offsets_overhead
  .ok (tottime, opentime, setuptime, aosetuptime, telsetuptime, offsetstime)

/-! ### `details` (only the string rendering of numbers is abstracted;
which entries appear, and when, follows the source exactly) -/

/-- `myRound(x, 1)`: round to one decimal (the `-0.0` normalisation is
automatic on `ℚ`).  Tie-breaking of Python float formatting is abstracted. -/
def myRound1 (x : ℚ) : ℚ := ((round (x * 10) : ℤ) : ℚ) / 10

/-- `%d`-style truncation toward zero. -/
def truncQ (q : ℚ) : ℤ := if q < 0 then ⌈q⌉ else ⌊q⌋

/-- `%.1f`-style rendering of a rational. -/
def fmtFixed1 (x : ℚ) : String :=
  let r := round (x * 10)
  let sign := if r < 0 then "-" else ""
  let a := r.natAbs
  sign ++ toString (a / 10) ++ "." ++ toString (a % 10)

def presetDetailLine (d : PresetInfo) : String :=
  d.wfs ++ ", star mag= " ++ fmtFixed1 d.mag ++ ", posXY= " ++
    fmtFixed1 (myRound1 d.refX) ++ ", " ++ fmtFixed1 (myRound1 d.refY) ++
    " mm, mode = " ++ d.mode

def interventionLine (c : ArbCmd) : String :=
  match c.intervention with
  | some true => "Intervention mode"
  | some false => "Automatic mode"
  | none => "Intervention/automatic mode unknown"

def completeObsLine (w : String) (ot per : ℚ) : String :=
  w ++ ", open shutter: " ++ toString (truncQ ot) ++ "s (" ++
    toString (truncQ per) ++ "%)"

def acquireDetails (c : ArbCmd) : List String :=
  (match c.estimatedMag with
   | some m => ["Estimated magnitude: " ++ fmtFixed1 m]
   | none => []) ++
  (match c.hoBinning with
   | some b => ["Ccd39 binning: " ++ toString b]
   | none => []) ++
  (match c.hoSpeed with
   | some s => ["Loop speed: " ++ toString s ++ " Hz"]
   | none => [])

/-- `ArbCmd.details`.  For `OffsetSequence`/`OffsetXY` the source computes
`coords = map(float, re.findall(...))` — a lazy map object — and then calls
`len(coords)`: under Python 3 that raises `TypeError`, which the surrounding
`except` swallows after printing, so the branch never appends an entry and
the accumulated `details` list (still empty) is returned.  For `PresetAO` a
failed extraction likewise ends the `try` before anything is appended.  For
`CompleteObs` an exception in `total_open_time` (or a missing `wfs`
attribute) is swallowed the same way.  Hence `details` itself is total. -/
def ArbCmd.details (c : ArbCmd) : List String :=
  if c.name == "OffsetSequence" || c.name == "OffsetXY" then []
  else if c.name == "PresetAO" then
    match presetDetailsParse c.args with
    | some d => [presetDetailLine d, interventionLine c]
    | none => []
  else if c.name == "CompleteObs" then
    match c.wfs, c.total_open_time with
    | some w, .ok ot =>
      let tt := c.total_time
      let per := if tt ≠ 0 then ot * 100 / tt else 0
      [completeObsLine w ot per]
    | _, _ => []
  else if c.name == "Acquire" then acquireDetails c
  else []

/-! ### The deduplicating `search` -/

/-- One input line of `search`, modelled through what the per-line operations
return: `ts` is `log_timestamp(line)`, `stripped` is `line.strip()`, `cont`
is the group of the continuation pattern in field 4 (`none` when the pattern
is absent or splitting the line raises the caught `IndexError`). -/
structure LogLine where
  ts : ℚ
  stripped : String
  cont : Option String

/-- `found2[t]` lookup on the insertion-ordered association list that models
the Python dict. -/
def dictLookup (acc : List (ℚ × String)) (t : ℚ) : Option String :=
  match acc.find? (fun p => p.1 == t) with
  | some p => some p.2
  | none => none

/-- `found2[t] = s` for a key that is not present (appended in insertion
order). -/
def dictInsert (acc : List (ℚ × String)) (t : ℚ) (s : String) :
    List (ℚ × String) :=
  acc ++ [(t, s)]

/-- `found2[t] += extra` for a key that is present. -/
def dictAppendAt (acc : List (ℚ × String)) (t : ℚ) (extra : String) :
    List (ℚ × String) :=
  acc.map (fun p => if p.1 == t then (p.1, p.2 ++ extra) else p)

/-- The loop of `search`.  The first argument is `prev`, which the source
updates after EVERY line, accepted or rejected.  An accepted line whose exact
timestamp is already a key contributes its continuation text, if any. -/
def searchFold (mindiff : ℚ) : ℚ → List (ℚ × String) → List LogLine →
    List (ℚ × String)
  | _, acc, [] => acc
  | prev, acc, l :: ls =>
    if mindiff ≤ l.ts - prev then
      match dictLookup acc l.ts with
      | none => searchFold mindiff l.ts (dictInsert acc l.ts l.stripped) ls
      | some _ =>
        match l.cont with
        | some extra => searchFold mindiff l.ts (dictAppendAt acc l.ts extra) ls
        | none => searchFold mindiff l.ts acc ls
    else searchFold mindiff l.ts acc ls

def insertSorted (t : ℚ) : List ℚ → List ℚ
  | [] => [t]
  | x :: xs => if t ≤ x then t :: x :: xs else x :: insertSorted t xs

def sortKeys : List ℚ → List ℚ
  | [] => []
  | x :: xs => insertSorted x (sortKeys xs)

/-- `search` (list variant, `getDict=False`): the accepted entries sorted by
timestamp ascending.  `prev` starts at `0`. -/
def search (mindiff : ℚ) (lines : List LogLine) : List String :=
  let d := searchFold mindiff 0 [] lines
  (sortKeys (d.map Prod.fst)).filterMap (fun k => dictLookup d k)

/-- The acceptance rule the code actually implements: a line is accepted iff
its timestamp differs from the immediately preceding LINE's timestamp
(accepted or not; initially `0`) by at least `mindiff`. -/
def lineAcceptTimes (mindiff : ℚ) : ℚ → List ℚ → List ℚ
  | _, [] => []
  | prev, t :: ts =>
    if mindiff ≤ t - prev then t :: lineAcceptTimes mindiff t ts
    else lineAcceptTimes mindiff t ts

/-- The acceptance rule the claim states: a line is accepted iff its
timestamp differs from the previous ACCEPTED line's timestamp by at least
`mindiff`. -/
def specAcceptTimes (mindiff : ℚ) : ℚ → List ℚ → List ℚ
  | _, [] => []
  | prevAcc, t :: ts =>
    if mindiff ≤ t - prevAcc then t :: specAcceptTimes mindiff t ts
    else specAcceptTimes mindiff prevAcc ts

/-! ### `detectCompleteObs` -/

/-- The in-progress `CompleteObs` object: its creation-time fields and the
accumulated sub-command list. -/
structure ObsData where
  start_time : Option ℚ
  wfs : String
  mode : String
  mag : ℚ
  subs : List ArbCmd

/-- The `inPreset`/`inObs` flags of the detector, with the pending composite
(`obsCmd` is only ever read while one of the flags is set). -/
inductive ObsState where
  | outside
  | inPreset (obs : ObsData)
  | inObs (obs : ObsData)

/-- The guard `cmd.name == 'PresetAO' and cmd.is_instrument_preset()`.
Returns the parsed preset fields when the command opens a composite (the
detector then reads `cmd.wfs`/`cmd.mode`/`cmd.mag`, which the
`is_instrument_preset` call just assigned). -/
def presetCheck (cmd : ArbCmd) : Except PyErr (Option PresetInfo) :=
  if cmd.name == "PresetAO" then
    match presetDetailsParse cmd.args with
    | none => .error .attributeError
    | some d => if d.refX ≠ 0 ∨ d.refY ≠ 0 then .ok (some d) else .ok none
  else .ok none

/-- The composite emitted when a `Stop`/`StopAO` closes an observation:
success is set to `True`, the end time to the stop command's. -/
def mkCompleteObs (obs : ObsData) (endt : Option ℚ) : ArbCmd :=
  .mk { name := "CompleteObs", start_time := obs.start_time, end_time := endt,
        success := some true, wfs := some obs.wfs, mode := some obs.mode,
        mag := some obs.mag, cmds := obs.subs }

/-- One iteration of the `detectCompleteObs` loop: the returned list holds
the composites appended to `newCmds` BEFORE the unconditional
`newCmds.append(cmd)`. -/
def completeObsStep (st : ObsState) (cmd : ArbCmd) :
    Except PyErr (List ArbCmd × ObsState) :=
  match presetCheck cmd with
  | .error e => .error e
  | .ok (some d) =>
    .ok ([], .inPreset ⟨cmd.start_time, d.wfs, d.mode, d.mag, [cmd]⟩)
  | .ok none =>
    match st with
    | .inPreset obs =>
      if cmd.name == "Cancel" then .ok ([], .outside)
      else
        let obs' := { obs with subs := obs.subs ++ [cmd] }
        if startAONames cmd then .ok ([], .inObs obs')
        else .ok ([], .inPreset obs')
    | .inObs obs =>
      let obs' := { obs with subs := obs.subs ++ [cmd] }
      if stopNames cmd then .ok ([mkCompleteObs obs' cmd.end_time], .outside)
      else .ok ([], .inObs obs')
    | .outside => .ok ([], .outside)

def detectCompleteObsLoop : ObsState → List ArbCmd → Except PyErr (List ArbCmd)
  | _, [] => .ok []
  | st, c :: rest =>
    match completeObsStep st c with
    | .error e => .error e
    | .ok (em, st') =>
      match detectCompleteObsLoop st' rest with
      | .error e => .error e
      | .ok out => .ok (em ++ c :: out)

/-- `detectCompleteObs`: every input command is re-emitted in place; each
completed composite is inserted just before its closing `Stop`/`StopAO`. -/
def detectCompleteObs (cmds : List ArbCmd) : Except PyErr (List ArbCmd) :=
  detectCompleteObsLoop .outside cmds

/-- The composites alone (same loop, same step function, the re-emitted
input commands filtered away). -/
def detectCompleteObsCompositesLoop :
    ObsState → List ArbCmd → Except PyErr (List ArbCmd)
  | _, [] => .ok []
  | st, c :: rest =>
    match completeObsStep st c with
    | .error e => .error e
    | .ok (em, st') =>
      match detectCompleteObsCompositesLoop st' rest with
      | .error e => .error e
      | .ok out => .ok (em ++ out)

def detectCompleteObsComposites (cmds : List ArbCmd) :
    Except PyErr (List ArbCmd) :=
  detectCompleteObsCompositesLoop .outside cmds

/-! ### `detectAcquires` -/

/-- `inAcquire`/`acquireCmd`/`acquireDone` (the latter two are only read
while `inAcquire` is true). -/
inductive AcqState where
  | idle
  | winOpen (acq : ArbCmd) (acquireDone : Bool)

/-- The fresh composite opened by an `AcquireRefAO`. -/
def newAcquire (cmd : ArbCmd) : ArbCmd :=
  .mk { name := "Acquire", start_time := cmd.start_time,
        success := cmd.success, errstr := cmd.errstr }

/-- The shared fold of a recognised sub-command into the composite:
`success AND`, error concatenation, end-time advance. -/
def foldAcq (acq cmd : ArbCmd) : ArbCmd :=
  .mk { acq.data with
        success := pyAnd acq.success cmd.success,
        errstr := acq.errstr ++ cmd.errstr,
        end_time := cmd.end_time }

/-- The `CheckFlux` fold additionally copies the dynamic fields that are
present on the sub-command. -/
def foldCheckFlux (acq cmd : ArbCmd) : ArbCmd :=
  let a := foldAcq acq cmd
  .mk { a.data with
        estimatedMag := (match cmd.estimatedMag with
                         | some v => some v
                         | none => a.estimatedMag),
        hoBinning := (match cmd.hoBinning with
                      | some v => some v
                      | none => a.hoBinning),
        hoSpeed := (match cmd.hoSpeed with
                    | some v => some v
                    | none => a.hoSpeed) }

def acquireSubNames : List String :=
  ["CenterPupils", "CenterStar", "CloseLoop", "OptimizeGain",
   "ReCloseLoop", "getLastImage", "ApplyOpticalGain"]

/-- One iteration of the `detectAcquires` loop; the returned list holds what
is appended to `newCmds` BEFORE the unconditional `newCmds.append(cmd)`. -/
def acquireStep (st : AcqState) (cmd : ArbCmd) : List ArbCmd × AcqState :=
  if cmd.name == "AcquireRefAO" then
    ([], .winOpen (newAcquire cmd) false)
  else
    match st with
    | .idle => ([], .idle)
    | .winOpen acq adone =>
      if cmd.name == "CheckFlux" then
        ([], .winOpen (foldCheckFlux acq cmd) adone)
      else if acquireSubNames.contains cmd.name then
        ([], .winOpen (foldAcq acq cmd) adone)
      else if cmd.name == "Done" then
        let a := foldAcq acq cmd
        if cmd.success == some true then ([a], .idle)
        else ([], .winOpen a true)
      else
        if !adone then
          let a := ArbCmd.mk { acq.data with
                               success := some false,
                               errstr := acq.errstr ++ " Command not completed" }
          ([a], .idle)
        else ([], .winOpen acq adone)

def detectAcquiresLoop : AcqState → List ArbCmd → List ArbCmd
  | _, [] => []
  | st, c :: rest =>
    (acquireStep st c).1 ++ c :: detectAcquiresLoop (acquireStep st c).2 rest

/-- `detectAcquires`: total (nothing in the loop body can raise). -/
def detectAcquires (cmds : List ArbCmd) : List ArbCmd :=
  detectAcquiresLoop .idle cmds

/-! ### `detectOffsets` -/

/-- `reduce(operator.and_, [s0, s1, s2])` on `bool | None` success values:
the bitwise `&` raises `TypeError` as soon as a `None` is an operand. -/
def reduceAnd3 : Option Bool → Option Bool → Option Bool → Except PyErr Bool
  | some a, some b, some c => .ok (a && b && c)
  | _, _, _ => .error .typeError

/-- One iteration of the `detectOffsets` loop at window `(c0, c1, c2)`.
The `Option String` threads the function-local variable `args`, which the
`Resume,Pause` branch reads without assigning (`UnboundLocalError` when no
earlier branch assigned it).  The returned list holds what is appended to
`newCmds` BEFORE the unconditional `newCmds.append(cmds[n])`. -/
def offsetStep (argsv : Option String) (c0 c1 c2 : ArbCmd) :
    Except PyErr (List ArbCmd × Option String) :=
  if c0.name == "Pause" && c1.name == "OffsetXY" && c2.name == "Resume" then
    match reduceAnd3 c0.success c1.success c2.success with
    | .error e => .error e
    | .ok b =>
      let cmd : ArbCmd := .mk {
        name := "OffsetSequence", args := c1.args,
        start_time := c0.start_time, end_time := c2.end_time,
        success := some b,
        errstr := String.intercalate " " [c0.errstr, c1.errstr, c2.errstr],
        pause := some c0, resume := some c2 }
      .ok ([cmd], some c1.args)
  else if c0.name == "Pause" && c1.name == "OffsetXY" then
    let succ0 := (c0.success == some true) && (c1.success == some true)
    let estr := if succ0 then "Resume was not sent"
                else String.intercalate " " [c0.errstr, c1.errstr]
    let cmd : ArbCmd := .mk {
      name := "OffsetSequence", args := c1.args,
      start_time := c0.start_time, end_time := c1.end_time,
      success := some false, errstr := estr,
      pause := some c0, resume := none }
    .ok ([cmd], some c1.args)
  else if c0.name == "Pause" && c1.name == "Resume" then
    let cmd : ArbCmd := .mk {
      name := "OffsetSequence", args := "",
      start_time := c0.start_time, end_time := c1.end_time,
      success := pyAnd c0.success c1.success,
      errstr := c0.errstr ++ " " ++ c1.errstr,
      pause := some c0, resume := some c1 }
    .ok ([cmd], some "")
  else if c0.name == "Pause" then
    let cmd : ArbCmd := .mk {
      name := "OffsetSequence", args := "",
      start_time := c0.start_time, end_time := c0.end_time,
      success := if c0.success == some true then some false else c0.success,
      errstr := (if c0.success == some true then "no OffsetXY or Resume"
                 else c0.errstr),
      pause := some c0, resume := none }
    .ok ([cmd], some "")
  else if c0.name == "Resume" && c1.name == "Pause" then
    match argsv with
    | none => .error .unboundLocalError
    | some av =>
      let cmd : ArbCmd := .mk {
        name := "ExposureSequence", args := av,
        start_time := c0.start_time, end_time := c0.end_time,
        success := pyAnd c0.success c1.success,
        errstr := c0.errstr ++ " " ++ c1.errstr,
        pause := some c1, resume := some c0 }
      .ok ([cmd], argsv)
  else .ok ([], argsv)

/-- The loop `for n in range(len(cmds)-2)`: iteration `n` sees the window
`cmds[n], cmds[n+1], cmds[n+2]` and ends with `newCmds.append(cmds[n])`;
the loop stops once fewer than three commands remain, so the LAST TWO input
commands are never appended. -/
def detectOffsetsLoop : Option String → List ArbCmd → Except PyErr (List ArbCmd)
  | _, [] => .ok []
  | _, [_] => .ok []
  | _, [_, _] => .ok []
  | argsv, c0 :: c1 :: c2 :: rest =>
    match offsetStep argsv c0 c1 c2 with
    | .error e => .error e
    | .ok (em, argsv') =>
      match detectOffsetsLoop argsv' (c1 :: c2 :: rest) with
      | .error e => .error e
      | .ok out => .ok (em ++ c0 :: out)

/-- `detectOffsets`: inputs shorter than three commands are returned
unchanged. -/
def detectOffsets (cmds : List ArbCmd) : Except PyErr (List ArbCmd) :=
  if cmds.length < 3 then .ok cmds else detectOffsetsLoop none cmds

/-! ### Claim-side definitions (from the specification's words, for
comparison with the embedded code) -/

def findFirstIdx (p : ArbCmd → Bool) : List ArbCmd → Option Nat
  | [] => none
  | x :: xs => if p x then some 0 else (findFirstIdx p xs).map (· + 1)

/-- `ao_setup_overhead` as the claim words it: the sum of `(end - start)`
over the sub-commands up to and including the FIRST `StartAO`/`Start AO`,
excluding `Acquire`/`Done`, and excluding `AcquireRefAO` exactly when an
intervention-class command is present anywhere in the full list; `0` when
there is no `StartAO`. -/
def aoSetupOverheadSpec (subs : List ArbCmd) : ℚ :=
  let isInterv := subs.any (fun x => interventionNames.contains x.name)
  match findFirstIdx startAONames subs with
  | none => 0
  | some i =>
    (((subs.take (i + 1)).filter (fun x =>
        !(x.name == "Acquire" || x.name == "Done") &&
        !(isInterv && x.name == "AcquireRefAO"))).map
      (fun x => x.end_time.getD 0 - x.start_time.getD 0)).sum

/-! ### Concrete commands used by the counterexamples and witnesses -/

/-- `Request: Pause()` at t=100, ended at t=102 (scenario 1). -/
def scenario1Pause : ArbCmd :=
  .mk { name := "Pause", start_time := some 100, end_time := some 102,
        success := some true }

/-- `Request: OffsetXY(1.0,2.0)` at t=103, ended at t=105 (scenario 1). -/
def scenario1Offset : ArbCmd :=
  .mk { name := "OffsetXY", args := "1.0,2.0", start_time := some 103,
        end_time := some 105, success := some true }

/-- `Request: Resume()` at t=106, ended at t=108 (scenario 1). -/
def scenario1Resume : ArbCmd :=
  .mk { name := "Resume", start_time := some 106, end_time := some 108,
        success := some true }

/-- The composite the code builds from scenario 1. -/
def scenario1Composite : ArbCmd :=
  .mk { name := "OffsetSequence", args := "1.0,2.0",
        start_time := some 100, end_time := some 108,
        success := some true, errstr := "  ",
        pause := some scenario1Pause, resume := some scenario1Resume }

/-- A `Pause` whose success was never set (no end marker). -/
def pauseUnknown : ArbCmd :=
  .mk { name := "Pause", start_time := some 100, end_time := some 102 }

/-- Plain commands that match none of the offset patterns. -/
def exCmdA : ArbCmd := .mk { name := "A", start_time := some 1, end_time := some 2 }

def exCmdB : ArbCmd := .mk { name := "B", start_time := some 3, end_time := some 4 }

def exCmdC : ArbCmd := .mk { name := "C", start_time := some 5, end_time := some 6 }

def exCmdD : ArbCmd := .mk { name := "D", start_time := some 7, end_time := some 8 }

def exCmdE : ArbCmd := .mk { name := "E", start_time := some 9, end_time := some 10 }

/-- A `PresetAO` whose resolved reference position is nonzero. -/
def presetNonzero : ArbCmd :=
  .mk { name := "PresetAO",
        args := "wfsSpec = aWFS expectedStarMagnitude = 8.0 roCoordX = 1.0 roCoordY = 0.0 mode = m",
        start_time := some 0, end_time := some 1, success := some true }

/-- A `PresetAO` whose reference position is `(0, 0)`. -/
def presetZero : ArbCmd :=
  .mk { name := "PresetAO",
        args := "wfsSpec = aWFS expectedStarMagnitude = 8.0 roCoordX = 0.0 roCoordY = 0.0 mode = m",
        start_time := some 0, end_time := some 1, success := some true }

def exStop1 : ArbCmd :=
  .mk { name := "Stop", start_time := some 2, end_time := some 3, success := some true }

def exStartAO1 : ArbCmd :=
  .mk { name := "StartAO", start_time := some 4, end_time := some 5, success := some true }

def exStartAO2 : ArbCmd :=
  .mk { name := "StartAO", start_time := some 6, end_time := some 7, success := some true }

def exStop2 : ArbCmd :=
  .mk { name := "Stop", start_time := some 8, end_time := some 9, success := some true }

def acqRef1 : ArbCmd :=
  .mk { name := "AcquireRefAO", start_time := some 10, end_time := some 12,
        success := some true }

def acqRef2 : ArbCmd :=
  .mk { name := "AcquireRefAO", start_time := some 20, end_time := some 22,
        success := some true }

def doneOk : ArbCmd :=
  .mk { name := "Done", start_time := some 24, end_time := some 25,
        success := some true }

def exResume1 : ArbCmd :=
  .mk { name := "Resume", start_time := some 30, end_time := some 31,
        success := some true }

/-! ### Helper lemmas -/

lemma sublist_cons_append {l out : List ArbCmd} (em : List ArbCmd) (c : ArbCmd)
    (h : List.Sublist l out) : List.Sublist (c :: l) (em ++ c :: out) :=
  (h.cons₂ c).trans (List.sublist_append_right em (c :: out))

lemma detectAcquiresLoop_sublist (cmds : List ArbCmd) :
    ∀ st, List.Sublist cmds (detectAcquiresLoop st cmds) := by
  induction cmds with
  | nil => intro st; exact List.Sublist.refl _
  | cons c rest ih => intro st; exact sublist_cons_append _ c (ih _)

lemma detectCompleteObsLoop_sublist :
    ∀ (cmds : List ArbCmd) (st : ObsState) (out : List ArbCmd),
      detectCompleteObsLoop st cmds = .ok out → List.Sublist cmds out := by
  intro cmds
  induction cmds with
  | nil =>
    intro st out h
    injection h with h
    subst h
    exact List.Sublist.refl _
  | cons c rest ih =>
    intro st out h
    unfold detectCompleteObsLoop at h
    cases hstep : completeObsStep st c with
    | error e => rw [hstep] at h; exact absurd h (by simp)
    | ok p =>
      obtain ⟨em, st'⟩ := p
      rw [hstep] at h
      dsimp only at h
      cases hrec : detectCompleteObsLoop st' rest with
      | error e => rw [hrec] at h; exact absurd h (by simp)
      | ok out' =>
        rw [hrec] at h
        injection h with h
        subst h
        exact sublist_cons_append em c (ih st' out' hrec)

lemma detectOffsetsLoop_sublist :
    ∀ (cmds : List ArbCmd) (argsv : Option String) (out : List ArbCmd),
      detectOffsetsLoop argsv cmds = .ok out →
      List.Sublist (cmds.take (cmds.length - 2)) out := by
  intro cmds
  induction cmds with
  | nil =>
    intro argsv out h
    injection h with h
    subst h
    simp
  | cons c0 tl ih =>
    rcases tl with _ | ⟨c1, tl2⟩
    · intro argsv out h
      injection h with h
      subst h
      simp
    rcases tl2 with _ | ⟨c2, rest⟩
    · intro argsv out h
      injection h with h
      subst h
      simp
    intro argsv out h
    unfold detectOffsetsLoop at h
    cases hstep : offsetStep argsv c0 c1 c2 with
    | error e => rw [hstep] at h; exact absurd h (by simp)
    | ok p =>
      obtain ⟨em, argsv'⟩ := p
      rw [hstep] at h
      dsimp only at h
      cases hrec : detectOffsetsLoop argsv' (c1 :: c2 :: rest) with
      | error e => rw [hrec] at h; exact absurd h (by simp)
      | ok out' =>
        rw [hrec] at h
        injection h with h
        subst h
        have h1 := ih argsv' out' hrec
        have e1 : (c1 :: c2 :: rest).length - 2 = rest.length := by simp
        rw [e1] at h1
        have e2 : (c0 :: c1 :: c2 :: rest).length - 2 = rest.length + 1 := by simp
        rw [e2, List.take_succ_cons]
        exact sublist_cons_append em c0 h1

/-- C1 (amended): `detectAcquires` and `detectCompleteObs` do preserve every
original command, in order, as a sublist of their output (composites are only
inserted alongside).  `detectOffsets` preserves, in order, every original
command EXCEPT the final two: its window loop `for n in range(len(cmds)-2)`
appends `cmds[n]` per iteration and never re-emits `cmds[-2]` and `cmds[-1]`
(inputs shorter than three commands are returned unchanged). -/
theorem c1_detectors_preserve_amended :
    (∀ cmds : List ArbCmd, List.Sublist cmds (detectAcquires cmds)) ∧
    (∀ (cmds out : List ArbCmd), detectCompleteObs cmds = .ok out → List.Sublist cmds out) ∧
    (∀ (cmds out : List ArbCmd), detectOffsets cmds = .ok out →
      List.Sublist (cmds.take (cmds.length - 2)) out ∧ (cmds.length < 3 → out = cmds)) := by
  refine ⟨fun cmds => detectAcquiresLoop_sublist cmds _,
          fun cmds out h => detectCompleteObsLoop_sublist cmds _ out h,
          fun cmds out h => ?_⟩
  unfold detectOffsets at h
  by_cases hlen : cmds.length < 3
  · rw [if_pos hlen] at h
    injection h with h
    subst h
    exact ⟨List.take_sublist _ _, fun _ => rfl⟩
  · rw [if_neg hlen] at h
    exact ⟨detectOffsetsLoop_sublist cmds _ out h, fun hc => absurd hc hlen⟩

/-- C1 counterexample: on the three-command input `A, B, C` (which matches no
offset pattern) `detectOffsets` returns only `[A]`; the original sequence is
not contained in the output — the last two commands are dropped. -/
theorem c1_counterexample :
    detectOffsets [exCmdA, exCmdB, exCmdC] = .ok [exCmdA] ∧
    ¬ List.Sublist [exCmdA, exCmdB, exCmdC] [exCmdA] := by
  refine ⟨rfl, fun h => ?_⟩
  have := h.length_le
  simp at this

/-- C1 witness: the amended theorem applied at concrete inputs. -/
theorem c1_witness :
    List.Sublist [exCmdA] (detectAcquires [exCmdA]) ∧
    List.Sublist [exCmdA] [exCmdA] ∧
    List.Sublist ([exCmdA, exCmdB, exCmdC].take 1) [exCmdA] := by
  refine ⟨c1_detectors_preserve_amended.1 [exCmdA],
          c1_detectors_preserve_amended.2.1 [exCmdA] [exCmdA] rfl, ?_⟩
  exact (c1_detectors_preserve_amended.2.2 [exCmdA, exCmdB, exCmdC] [exCmdA] rfl).1

/-! ### C5: idempotence of `detectOffsets` on pattern-free sequences -/

lemma detectOffsetsLoop_no_patterns :
    ∀ (cmds : List ArbCmd) (argsv : Option String),
      (∀ c ∈ cmds, c.name ≠ "Pause" ∧ c.name ≠ "Resume" ∧ c.name ≠ "OffsetXY") →
      detectOffsetsLoop argsv cmds = .ok (cmds.take (cmds.length - 2)) := by
  intro cmds
  induction cmds with
  | nil => intro argsv _; rfl
  | cons c0 tl ih =>
    rcases tl with _ | ⟨c1, tl2⟩
    · intro argsv _; rfl
    rcases tl2 with _ | ⟨c2, rest⟩
    · intro argsv _; rfl
    intro argsv hnames
    have h0 := hnames c0 (by simp)
    have hstep : offsetStep argsv c0 c1 c2 = .ok ([], argsv) := by
      unfold offsetStep
      simp [h0.1, h0.2.1]
    unfold detectOffsetsLoop
    rw [hstep]
    dsimp only
    rw [ih argsv (fun c hc => hnames c (List.mem_cons_of_mem c0 hc))]
    dsimp only
    have e1 : (c1 :: c2 :: rest).length - 2 = rest.length := by simp
    have e2 : (c0 :: c1 :: c2 :: rest).length - 2 = rest.length + 1 := by simp
    rw [e1, e2, List.take_succ_cons]
    rfl

/-- C5 (amended): on a command sequence containing no `Pause`, `Resume` or
`OffsetXY`, `detectOffsets` creates no composites — it returns the input
itself when shorter than three commands, and the input minus its last two
commands otherwise.  Consequently applying it twice equals applying it once
exactly for sequences of at most four commands; for five or more, the second
application drops two further trailing commands. -/
theorem c5_detectOffsets_amended :
    ∀ cmds : List ArbCmd,
      (∀ c ∈ cmds, c.name ≠ "Pause" ∧ c.name ≠ "Resume" ∧ c.name ≠ "OffsetXY") →
      detectOffsets cmds =
        .ok (if cmds.length < 3 then cmds else cmds.take (cmds.length - 2)) ∧
      (cmds.length ≤ 4 →
        (detectOffsets cmds).bind detectOffsets = detectOffsets cmds) := by
  intro cmds hnames
  have h1 : detectOffsets cmds =
      .ok (if cmds.length < 3 then cmds else cmds.take (cmds.length - 2)) := by
    unfold detectOffsets
    by_cases hlen : cmds.length < 3
    · rw [if_pos hlen, if_pos hlen]
    · rw [if_neg hlen, if_neg hlen]
      exact detectOffsetsLoop_no_patterns cmds none hnames
  refine ⟨h1, fun hle => ?_⟩
  rw [h1]
  by_cases hlen : cmds.length < 3
  · rw [if_pos hlen]
    show detectOffsets cmds = _
    rw [h1, if_pos hlen]
  · rw [if_neg hlen]
    show detectOffsets (cmds.take (cmds.length - 2)) = _
    unfold detectOffsets
    rw [if_pos]
    simp only [List.length_take]
    omega

/-- C5 counterexample: five pattern-free commands; one application keeps
three of them, a second application keeps only one, so `detectOffsets` is
not idempotent on this sequence. -/
theorem c5_counterexample :
    (detectOffsets [exCmdA, exCmdB, exCmdC, exCmdD, exCmdE]).bind detectOffsets ≠
      detectOffsets [exCmdA, exCmdB, exCmdC, exCmdD, exCmdE] := by
  intro h
  have h1 : (detectOffsets [exCmdA, exCmdB, exCmdC, exCmdD, exCmdE]).bind detectOffsets
      = .ok [exCmdA] := rfl
  have h2 : detectOffsets [exCmdA, exCmdB, exCmdC, exCmdD, exCmdE]
      = .ok [exCmdA, exCmdB, exCmdC] := rfl
  rw [h1, h2] at h
  injection h with h
  simp at h

/-- C5 witness: the amended theorem applied to the three pattern-free
commands `A, B, C`. -/
theorem c5_witness :
    detectOffsets [exCmdA, exCmdB, exCmdC] =
      .ok (if ([exCmdA, exCmdB, exCmdC].length < 3) then [exCmdA, exCmdB, exCmdC]
           else [exCmdA, exCmdB, exCmdC].take ([exCmdA, exCmdB, exCmdC].length - 2)) ∧
    (detectOffsets [exCmdA, exCmdB, exCmdC]).bind detectOffsets =
      detectOffsets [exCmdA, exCmdB, exCmdC] := by
  have h := c5_detectOffsets_amended [exCmdA, exCmdB, exCmdC] (by decide)
  exact ⟨h.1, h.2 (by decide)⟩

/-! ### C6: scenario 1 and the `details` bug -/

/-- C6: on scenario 1 the code builds exactly one `OffsetSequence` with
start 100, end 108, success `True` — but `details()` yields `[]`, not
`["X=1.00, Y=2.00 mm"]`: the branch calls `len()` on the lazy `map` object
`coords`, which raises `TypeError` under Python 3 and is swallowed by the
handler before anything is appended. -/
theorem c6_scenario1_details_empty :
    detectOffsets [scenario1Pause, scenario1Offset, scenario1Resume] =
      .ok [scenario1Composite, scenario1Pause] ∧
    scenario1Composite.name = "OffsetSequence" ∧
    scenario1Composite.start_time = some 100 ∧
    scenario1Composite.end_time = some 108 ∧
    scenario1Composite.success = some true ∧
    ArbCmd.details scenario1Composite = [] := by
  exact ⟨rfl, rfl, rfl, rfl, rfl, rfl⟩

/-! ### C7: composite success forms in `detectOffsets` -/

/-- C7 (amended): for the full `Pause, OffsetXY, Resume` window the composite
success is the AND of the three constituents' success values WHEN all three
are known booleans; if any of the three is unknown (`None`), the windowed
`reduce(operator.and_, ...)` raises an uncaught `TypeError` — unknown values
are not auto-failed, but the computation aborts rather than being total.
The two-element `Pause, OffsetXY` form uses explicit `is True` checks, is
total, and always marks the composite failed. -/
theorem c7_offset_success_amended :
    (∀ (argsv : Option String) (c0 c1 c2 : ArbCmd) (a b c : Bool),
      c0.name = "Pause" → c1.name = "OffsetXY" → c2.name = "Resume" →
      c0.success = some a → c1.success = some b → c2.success = some c →
      ∃ comp : ArbCmd, offsetStep argsv c0 c1 c2 = .ok ([comp], some c1.args) ∧
        comp.success = some (a && b && c)) ∧
    (∀ (argsv : Option String) (c0 c1 c2 : ArbCmd),
      c0.name = "Pause" → c1.name = "OffsetXY" → c2.name = "Resume" →
      (c0.success = none ∨ c1.success = none ∨ c2.success = none) →
      offsetStep argsv c0 c1 c2 = .error .typeError) ∧
    (∀ (argsv : Option String) (c0 c1 c2 : ArbCmd),
      c0.name = "Pause" → c1.name = "OffsetXY" → c2.name ≠ "Resume" →
      ∃ comp : ArbCmd, offsetStep argsv c0 c1 c2 = .ok ([comp], some c1.args) ∧
        comp.success = some false ∧
        comp.errstr = (if (c0.success == some true) && (c1.success == some true)
                       then "Resume was not sent"
                       else String.intercalate " " [c0.errstr, c1.errstr])) := by
  refine ⟨?_, ?_, ?_⟩
  · intro argsv c0 c1 c2 a b c h0 h1 h2 hs0 hs1 hs2
    have hstep : offsetStep argsv c0 c1 c2 = .ok
        ([ArbCmd.mk {
            name := "OffsetSequence", args := c1.args,
            start_time := c0.start_time, end_time := c2.end_time,
            success := some (a && b && c),
            errstr := String.intercalate " " [c0.errstr, c1.errstr, c2.errstr],
            pause := some c0, resume := some c2 }], some c1.args) := by
      unfold offsetStep
      rw [if_pos (by simp [h0, h1, h2]), hs0, hs1, hs2]
      rfl
    exact ⟨_, hstep, rfl⟩
  · intro argsv c0 c1 c2 h0 h1 h2 hnone
    unfold offsetStep
    rw [if_pos (by simp [h0, h1, h2])]
    have : reduceAnd3 c0.success c1.success c2.success = .error .typeError := by
      rcases hnone with h | h | h <;> rw [h] <;>
        rcases c0.success with _ | b0 <;>
        rcases c1.success with _ | b1 <;>
        rcases c2.success with _ | b2 <;>
        rfl
    rw [this]
  · intro argsv c0 c1 c2 h0 h1 h2
    have hstep : offsetStep argsv c0 c1 c2 = .ok
        ([ArbCmd.mk {
            name := "OffsetSequence", args := c1.args,
            start_time := c0.start_time, end_time := c1.end_time,
            success := some false,
            errstr := (if (c0.success == some true) && (c1.success == some true)
                       then "Resume was not sent"
                       else String.intercalate " " [c0.errstr, c1.errstr]),
            pause := some c0, resume := none }], some c1.args) := by
      unfold offsetStep
      rw [if_neg (by simp [h2]), if_pos (by simp [h0, h1])]
    exact ⟨_, hstep, rfl, rfl⟩

/-- C7 counterexample: a `Pause` with unknown success followed by a
successful `OffsetXY` and `Resume` makes `detectOffsets` abort with
`TypeError` — the windowed AND form is not well-defined on unknown. -/
theorem c7_counterexample :
    detectOffsets [pauseUnknown, scenario1Offset, scenario1Resume] =
      .error .typeError := rfl

/-- C7 witness: the amended theorem applied at concrete windows. -/
theorem c7_witness :
    (∃ comp : ArbCmd,
      offsetStep none scenario1Pause scenario1Offset scenario1Resume =
        .ok ([comp], some scenario1Offset.args) ∧
      comp.success = some (true && true && true)) ∧
    offsetStep none pauseUnknown scenario1Offset scenario1Resume =
      .error .typeError ∧
    (∃ comp : ArbCmd,
      offsetStep none scenario1Pause scenario1Offset exCmdA =
        .ok ([comp], some scenario1Offset.args) ∧
      comp.success = some false ∧
      comp.errstr =
        (if (scenario1Pause.success == some true) &&
            (scenario1Offset.success == some true)
         then "Resume was not sent"
         else String.intercalate " " [scenario1Pause.errstr, scenario1Offset.errstr])) := by
  refine ⟨?_, ?_, ?_⟩
  · exact c7_offset_success_amended.1 none scenario1Pause scenario1Offset
      scenario1Resume true true true rfl rfl rfl rfl rfl rfl
  · exact c7_offset_success_amended.2.1 none pauseUnknown scenario1Offset
      scenario1Resume rfl rfl rfl (Or.inl rfl)
  · exact c7_offset_success_amended.2.2 none scenario1Pause scenario1Offset
      exCmdA rfl rfl (by decide)

/-! ### C8: zero-coordinate `PresetAO` -/

/- Batteries marks the rational-number operations irreducible, which blocks
the elaborator from evaluating the embedded code on concrete inputs (the
kernel is unaffected); the concrete witnesses below need them unfolded. -/
attribute [local semireducible] Rat.add Rat.sub Rat.mul Rat.inv Rat.ofScientific

/-- C8: a `PresetAO` whose argument text parses with `roCoordX = 0` and
`roCoordY = 0` is not an instrument preset, and `detectCompleteObs` does not
open a composite for it: from the `Outside` state the step emits nothing and
stays `Outside`. -/
theorem c8_zero_preset_not_instrument :
    ∀ (c : ArbCmd) (d : PresetInfo), c.name = "PresetAO" →
      presetDetailsParse c.args = some d → d.refX = 0 → d.refY = 0 →
      c.is_instrument_preset = .ok false ∧
      completeObsStep .outside c = .ok ([], .outside) := by
  intro c d hn hp hx hy
  have hcheck : presetCheck c = .ok none := by
    unfold presetCheck
    rw [if_pos (by simp [hn]), hp]
    dsimp only
    rw [if_neg (by simp [hx, hy])]
  constructor
  · unfold ArbCmd.is_instrument_preset
    rw [if_neg (by simp [hn]), hp]
    simp [hx, hy]
  · unfold completeObsStep
    rw [hcheck]

/-- C8 witness: the concrete zero-coordinate `PresetAO`. -/
theorem c8_witness :
    presetZero.is_instrument_preset = .ok false ∧
    completeObsStep .outside presetZero = .ok ([], .outside) :=
  c8_zero_preset_not_instrument presetZero ⟨"a", 8, 0, 0, "m"⟩ rfl (by decide)
    rfl rfl

/-! ### C9: `offsets_overhead` on a `Resume` before any `Pause` -/

lemma offsetsOverheadLoop_unbound :
    ∀ (pre : List ArbCmd) (r : ArbCmd) (rest : List ArbCmd) (acc : ℚ),
      (r.name = "Resume" ∨ r.name = "ResumeAO") →
      (∀ x ∈ pre, x.name ≠ "Pause" ∧ x.name ≠ "PauseAO") →
      offsetsOverheadLoop none acc (pre ++ r :: rest) = .error .unboundLocalError := by
  intro pre
  induction pre with
  | nil =>
    intro r rest acc hr _
    unfold offsetsOverheadLoop
    rcases hr with h | h <;> simp [h]
  | cons x xs ih =>
    intro r rest acc hr hpre
    have hx := hpre x (by simp)
    have hpv : (if x.name == "PauseAO" || x.name == "Pause"
        then some x.start_time else (none : Option (Option ℚ))) = none := by
      rw [if_neg (by simp [hx.1, hx.2])]
    rw [List.cons_append]
    unfold offsetsOverheadLoop
    rw [hpv]
    by_cases hres : (x.name == "ResumeAO" || x.name == "Resume") = true
    · rw [if_pos hres]
    · rw [if_neg hres]
      exact ih r rest acc hr (fun y hy => hpre y (List.mem_cons_of_mem x hy))

/-- C9: if the sub-command list of a `CompleteObs` contains a
`Resume`/`ResumeAO` before any `Pause`/`PauseAO`, `offsets_overhead` reads
the local `pause_time` before it is ever assigned and raises an unhandled
`UnboundLocalError` instead of returning a duration; the per-observation CSV
writer (whose numeric cells `observationRow` models) does not catch it, so
no row is ever produced for such an observation. -/
theorem c9_offsets_overhead_unbound :
    ∀ (c : ArbCmd) (pre : List ArbCmd) (r : ArbCmd) (rest : List ArbCmd),
      c.cmds = pre ++ r :: rest →
      (r.name = "Resume" ∨ r.name = "ResumeAO") →
      (∀ x ∈ pre, x.name ≠ "Pause" ∧ x.name ≠ "PauseAO") →
      c.offsets_overhead = .error .unboundLocalError ∧
      ∀ v, observationRow c ≠ .ok v := by
  intro c pre r rest hc hr hpre
  have h1 : c.offsets_overhead = .error .unboundLocalError := by
    unfold ArbCmd.offsets_overhead
    rw [hc]
    exact offsetsOverheadLoop_unbound pre r rest 0 hr hpre
  have h2 : ∃ e, c.total_open_time = .error e := by
    unfold ArbCmd.total_open_time
    cases hs : c.setup_duration with
    | error e => exact ⟨e, by simp [hs, Bind.bind, Except.bind]⟩
    | ok s => exact ⟨.unboundLocalError, by simp [hs, h1, Bind.bind, Except.bind]⟩
  refine ⟨h1, fun v hv => ?_⟩
  obtain ⟨e, he⟩ := h2
  unfold observationRow at hv
  rw [he] at hv
  simp [Bind.bind, Except.bind] at hv

/-- The `CompleteObs` used as the C9 witness: its only sub-command is a
`Resume`. -/
def exObsC9 : ArbCmd := .mk { name := "CompleteObs", cmds := [exResume1] }

/-- C9 witness: the theorem applied to `exObsC9`. -/
theorem c9_witness :
    exObsC9.offsets_overhead = .error .unboundLocalError ∧
    observationRow exObsC9 ≠ .ok (0, 0, 0, 0, 0, 0) := by
  have h := c9_offsets_overhead_unbound exObsC9 [] exResume1 [] rfl (Or.inl rfl)
    (by simp)
  exact ⟨h.1, h.2 (0, 0, 0, 0, 0, 0)⟩

/-! ### C10: a second `AcquireRefAO` discards the open window -/

/-- C10: while an acquisition window is open, an `AcquireRefAO` command makes
the step emit nothing — the in-progress `Acquire` composite is silently
discarded and never reaches the output — and a fresh window is opened from
the new command.  Concretely, on `AcquireRefAO(10), AcquireRefAO(20),
Done(success)` the output contains exactly one `Acquire` composite and it
starts at the second `AcquireRefAO`'s start time 20. -/
theorem c10_acquire_window_discard :
    (∀ (acq : ArbCmd) (adone : Bool) (cmd : ArbCmd), cmd.name = "AcquireRefAO" →
      acquireStep (.winOpen acq adone) cmd = ([], .winOpen (newAcquire cmd) false)) ∧
    ((detectAcquires [acqRef1, acqRef2, doneOk]).filter
        (fun c => c.name == "Acquire")).map ArbCmd.start_time = [some 20] := by
  constructor
  · intro acq adone cmd hname
    unfold acquireStep
    rw [if_pos (by simp [hname])]
  · rfl

/-- C10 witness: the step equation applied at a concrete open window. -/
theorem c10_witness :
    acquireStep (.winOpen (newAcquire acqRef1) false) acqRef2 =
      ([], .winOpen (newAcquire acqRef2) false) :=
  c10_acquire_window_discard.1 (newAcquire acqRef1) false acqRef2 rfl

/-! ### C4: `ao_setup_overhead` against the claim's formula -/

lemma aoSetupLoop_cons (iv : Bool) (acc : ℚ) (x : ArbCmd) (xs : List ArbCmd) :
    aoSetupLoop iv acc (x :: xs) =
      if x.name == "Acquire" || x.name == "Done" then aoSetupLoop iv acc xs
      else
        match x.end_time, x.start_time with
        | some e, some s =>
          if iv && x.name == "AcquireRefAO" then aoSetupLoop iv acc xs
          else if startAONames x then acc + (e - s)
          else aoSetupLoop iv (acc + (e - s)) xs
        | _, _ => aoSetupLoop iv acc xs := rfl

lemma findFirstIdx_cons (p : ArbCmd → Bool) (x : ArbCmd) (xs : List ArbCmd) :
    findFirstIdx p (x :: xs) =
      if p x then some 0 else (findFirstIdx p xs).map (· + 1) := rfl

lemma aoSetupLoop_eq_spec :
    ∀ (subs : List ArbCmd) (iv : Bool) (acc : ℚ),
      (∀ x ∈ subs, x.start_time.isSome ∧ x.end_time.isSome) →
      aoSetupLoop iv acc subs =
        (match findFirstIdx startAONames subs with
         | none => 0
         | some i => acc + (((subs.take (i + 1)).filter (fun x =>
             !(x.name == "Acquire" || x.name == "Done") &&
             !(iv && x.name == "AcquireRefAO"))).map
           (fun x => x.end_time.getD 0 - x.start_time.getD 0)).sum) := by
  intro subs
  induction subs with
  | nil => intro iv acc _; rfl
  | cons x xs ih =>
    intro iv acc htimes
    have hx := htimes x (by simp)
    obtain ⟨s, hs⟩ := Option.isSome_iff_exists.mp hx.1
    obtain ⟨e, he⟩ := Option.isSome_iff_exists.mp hx.2
    have htl : ∀ y ∈ xs, y.start_time.isSome ∧ y.end_time.isSome :=
      fun y hy => htimes y (List.mem_cons_of_mem x hy)
    by_cases had : (x.name == "Acquire" || x.name == "Done") = true
    · -- skipped by the first continue; such a command is not a StartAO
      have hnotao : startAONames x = false := by
        rcases Bool.or_eq_true_iff.mp had with h | h <;>
          simp only [beq_iff_eq] at h <;> simp [startAONames, h]
      rw [aoSetupLoop_cons, if_pos had, ih iv acc htl,
        findFirstIdx_cons, if_neg (by simp [hnotao])]
      cases hfi : findFirstIdx startAONames xs with
      | none => rfl
      | some i =>
        dsimp only [Option.map]
        rw [List.take_succ_cons, List.filter_cons_of_neg (by simp [had])]
    · by_cases hacq : (iv && x.name == "AcquireRefAO") = true
      · have hnotao : startAONames x = false := by
          have h := (Bool.and_eq_true_iff.mp hacq).2
          simp only [beq_iff_eq] at h
          simp [startAONames, h]
        rw [aoSetupLoop_cons, if_neg had, hs, he]
        dsimp only
        rw [if_pos hacq, ih iv acc htl,
          findFirstIdx_cons, if_neg (by simp [hnotao])]
        cases hfi : findFirstIdx startAONames xs with
        | none => rfl
        | some i =>
          dsimp only [Option.map]
          rw [List.take_succ_cons, List.filter_cons_of_neg (by simp [had, hacq])]
      · by_cases hao : startAONames x = true
        · rw [aoSetupLoop_cons, if_neg had, hs, he]
          dsimp only
          rw [if_neg hacq, if_pos hao, findFirstIdx_cons, if_pos hao]
          dsimp only
          rw [List.take_succ_cons, List.take_zero,
            List.filter_cons_of_pos (by simp [had, hacq])]
          simp [hs, he]
        · rw [aoSetupLoop_cons, if_neg had, hs, he]
          dsimp only
          rw [if_neg hacq, if_neg (by simp [hao]), ih iv (acc + (e - s)) htl,
            findFirstIdx_cons, if_neg (by simp [hao])]
          cases hfi : findFirstIdx startAONames xs with
          | none => rfl
          | some i =>
            dsimp only [Option.map]
            rw [List.take_succ_cons, List.filter_cons_of_pos (by simp [had, hacq])]
            simp [hs, he]
            ring

/-- C4: for a `CompleteObs` whose sub-commands all carry both times (so that
every `(end - start)` in the claim's sum is defined), `ao_setup_overhead`
equals the claim's formula: the sum of `(end - start)` over the sub-commands
up to and including the first `StartAO`/`Start AO`, excluding
`Acquire`/`Done`, and excluding `AcquireRefAO` exactly when an
intervention-class command (`CenterStar`, `CenterPupils`, `CheckFlux`,
`CloseLoop`) occurs anywhere in the full sub-command list; `0` when no
`StartAO` is reached. -/
theorem c4_ao_setup_overhead_spec :
    ∀ c : ArbCmd,
      (∀ x ∈ c.cmds, x.start_time.isSome ∧ x.end_time.isSome) →
      c.ao_setup_overhead = aoSetupOverheadSpec c.cmds := by
  intro c htimes
  unfold ArbCmd.ao_setup_overhead aoSetupOverheadSpec
  rw [aoSetupLoop_eq_spec c.cmds _ 0 htimes]
  cases findFirstIdx startAONames c.cmds with
  | none => rfl
  | some i => simp

/-- The `CompleteObs` used as the C4 witness: a timed `PresetAO`-like
command, an `AcquireRefAO`, a `CheckFlux` (intervention class) and a
`StartAO`, followed by a command after the `StartAO` that must not count. -/
def exObsC4 : ArbCmd :=
  .mk { name := "CompleteObs", start_time := some 0, end_time := some 40,
        cmds := [.mk { name := "X", start_time := some 0, end_time := some 4 },
                 .mk { name := "AcquireRefAO", start_time := some 4, end_time := some 10 },
                 .mk { name := "CheckFlux", start_time := some 10, end_time := some 13 },
                 .mk { name := "StartAO", start_time := some 13, end_time := some 15 },
                 .mk { name := "Y", start_time := some 15, end_time := some 40 }] }

/-- C4 witness: the theorem applied to `exObsC4`; the `AcquireRefAO` is
excluded (a `CheckFlux` is present), the trailing command is past the first
`StartAO`, so both sides are `4 + 3 + 2 = 9`. -/
theorem c4_witness :
    exObsC4.ao_setup_overhead = aoSetupOverheadSpec exObsC4.cmds ∧
    exObsC4.ao_setup_overhead = 9 :=
  ⟨c4_ao_setup_overhead_spec exObsC4 (by decide), by decide⟩

/-! ### C2: contents of an emitted `CompleteObs` -/

/-- The detector's running invariant: while `inObs`, the pending sub-command
list already contains a `StartAO`/`Start AO` (it is what switched the state). -/
def obsInvariant : ObsState → Prop
  | .inObs obs => 1 ≤ obs.subs.countP startAONames
  | _ => True

lemma completeObsStep_sound :
    ∀ (st : ObsState) (cmd : ArbCmd) (em : List ArbCmd) (st' : ObsState),
      completeObsStep st cmd = .ok (em, st') → obsInvariant st →
      obsInvariant st' ∧ ∀ x ∈ em, x.success = some true ∧
        1 ≤ x.cmds.countP startAONames ∧ 1 ≤ x.cmds.countP stopNames := by
  intro st cmd em st' h hinv
  unfold completeObsStep at h
  cases hpc : presetCheck cmd with
  | error e => rw [hpc] at h; exact absurd h (by simp)
  | ok ip =>
    rw [hpc] at h
    cases ip with
    | some d =>
      dsimp only at h
      injection h with h
      injection h with h1 h2
      subst h1
      subst h2
      exact ⟨trivial, by simp⟩
    | none =>
      dsimp only at h
      cases st with
      | outside =>
        dsimp only at h
        injection h with h
        injection h with h1 h2
        subst h1
        subst h2
        exact ⟨trivial, by simp⟩
      | inPreset obs =>
        dsimp only at h
        by_cases hc : (cmd.name == "Cancel") = true
        · rw [if_pos hc] at h
          injection h with h
          injection h with h1 h2
          subst h1
          subst h2
          exact ⟨trivial, by simp⟩
        · rw [if_neg hc] at h
          by_cases hao : startAONames cmd = true
          · rw [if_pos hao] at h
            injection h with h
            injection h with h1 h2
            subst h1
            subst h2
            refine ⟨?_, by simp⟩
            show 1 ≤ (obs.subs ++ [cmd]).countP startAONames
            rw [List.countP_append]
            simp [List.countP_cons, hao]
          · rw [if_neg hao] at h
            injection h with h
            injection h with h1 h2
            subst h1
            subst h2
            exact ⟨trivial, by simp⟩
      | inObs obs =>
        dsimp only at h
        by_cases hstop : stopNames cmd = true
        · rw [if_pos hstop] at h
          injection h with h
          injection h with h1 h2
          subst h1
          subst h2
          refine ⟨trivial, fun x hx => ?_⟩
          rw [List.mem_singleton] at hx
          subst hx
          refine ⟨rfl, ?_, ?_⟩
          · show 1 ≤ (obs.subs ++ [cmd]).countP startAONames
            rw [List.countP_append]
            exact le_add_right hinv
          · show 1 ≤ (obs.subs ++ [cmd]).countP stopNames
            rw [List.countP_append]
            simp [List.countP_cons, hstop]
        · rw [if_neg hstop] at h
          injection h with h
          injection h with h1 h2
          subst h1
          subst h2
          refine ⟨?_, by simp⟩
          show 1 ≤ (obs.subs ++ [cmd]).countP startAONames
          rw [List.countP_append]
          exact le_add_right hinv

lemma detectCompleteObsCompositesLoop_sound :
    ∀ (cmds : List ArbCmd) (st : ObsState) (res : List ArbCmd),
      detectCompleteObsCompositesLoop st cmds = .ok res → obsInvariant st →
      ∀ x ∈ res, x.success = some true ∧
        1 ≤ x.cmds.countP startAONames ∧ 1 ≤ x.cmds.countP stopNames := by
  intro cmds
  induction cmds with
  | nil =>
    intro st res h _
    injection h with h
    subst h
    intro x hx
    exact absurd hx (by simp)
  | cons c rest ih =>
    intro st res h hinv
    unfold detectCompleteObsCompositesLoop at h
    cases hstep : completeObsStep st c with
    | error e => rw [hstep] at h; exact absurd h (by simp)
    | ok p =>
      obtain ⟨em, st'⟩ := p
      rw [hstep] at h
      dsimp only at h
      cases hrec : detectCompleteObsCompositesLoop st' rest with
      | error e => rw [hrec] at h; exact absurd h (by simp)
      | ok res' =>
        rw [hrec] at h
        injection h with h
        subst h
        have hs := completeObsStep_sound st c em st' hstep hinv
        intro x hx
        rcases List.mem_append.mp hx with hx | hx
        · exact hs.2 x hx
        · exact ih st' res' hrec hs.1 x hx

/-- C2 (amended): every `CompleteObs` composite emitted by
`detectCompleteObs` is marked successful and its sub-command list contains
AT LEAST one `StartAO`/`Start AO` and AT LEAST one `Stop`/`StopAO` — but not
necessarily exactly one of each: while `InObs` every command is appended and
only `Stop`/`StopAO` closes, so further `StartAO`s are collected, and a
`Stop` arriving while still `InPreset` is collected without closing. -/
theorem c2_completeobs_amended :
    ∀ (cmds res : List ArbCmd), detectCompleteObsComposites cmds = .ok res →
      ∀ x ∈ res, x.success = some true ∧
        1 ≤ x.cmds.countP startAONames ∧ 1 ≤ x.cmds.countP stopNames :=
  fun cmds res h => detectCompleteObsCompositesLoop_sound cmds .outside res h trivial

/-- C2 counterexample: `PresetAO (instrument), Stop, StartAO, StartAO, Stop`
emits one successful `CompleteObs` whose sub-command list contains TWO
`StartAO`s and TWO `Stop`s — not exactly one of each as claimed. -/
theorem c2_counterexample :
    (detectCompleteObsComposites
        [presetNonzero, exStop1, exStartAO1, exStartAO2, exStop2]).map
      (fun l => l.map (fun x => (x.success, x.cmds.countP startAONames,
        x.cmds.countP stopNames))) = .ok [(some true, 2, 2)] ∧
    (2 : Nat) ≠ 1 := by
  exact ⟨rfl, by decide⟩

/-- The composite emitted on the C2 witness input. -/
def obs2winComposite : ArbCmd :=
  .mk { name := "CompleteObs", start_time := some 0, end_time := some 9,
        success := some true, wfs := some "a", mode := some "m", mag := some 8,
        cmds := [presetNonzero, exStartAO1, exStop2] }

/-- C2 witness: the amended theorem applied to the single composite produced
by `PresetAO (instrument), StartAO, Stop`. -/
theorem c2_witness :
    obs2winComposite.success = some true ∧
    1 ≤ obs2winComposite.cmds.countP startAONames ∧
    1 ≤ obs2winComposite.cmds.countP stopNames :=
  c2_completeobs_amended [presetNonzero, exStartAO1, exStop2]
    [obs2winComposite] rfl obs2winComposite (List.mem_singleton.mpr rfl)

/-! ### C3: the deduplicating search -/

lemma searchFold_cons (mindiff prev : ℚ) (acc : List (ℚ × String))
    (l : LogLine) (ls : List LogLine) :
    searchFold mindiff prev acc (l :: ls) =
      if mindiff ≤ l.ts - prev then
        match dictLookup acc l.ts with
        | none => searchFold mindiff l.ts (dictInsert acc l.ts l.stripped) ls
        | some _ =>
          match l.cont with
          | some extra => searchFold mindiff l.ts (dictAppendAt acc l.ts extra) ls
          | none => searchFold mindiff l.ts acc ls
      else searchFold mindiff l.ts acc ls := rfl

lemma lineAcceptTimes_cons (mindiff prev t : ℚ) (ts : List ℚ) :
    lineAcceptTimes mindiff prev (t :: ts) =
      if mindiff ≤ t - prev then t :: lineAcceptTimes mindiff t ts
      else lineAcceptTimes mindiff t ts := rfl

lemma dictAppendAt_fst (acc : List (ℚ × String)) (t : ℚ) (e : String) :
    (dictAppendAt acc t e).map Prod.fst = acc.map Prod.fst := by
  induction acc with
  | nil => rfl
  | cons p ps ih =>
    unfold dictAppendAt at ih ⊢
    simp only [List.map_cons, ih]
    by_cases hp : (p.1 == t) = true <;> simp [hp]

lemma mem_dictAppendAt (acc : List (ℚ × String)) (t : ℚ) (e : String) :
    ∀ q ∈ dictAppendAt acc t e, ∃ p ∈ acc, p.1 = q.1 := by
  intro q hq
  unfold dictAppendAt at hq
  obtain ⟨p, hp, hpe⟩ := List.mem_map.mp hq
  refine ⟨p, hp, ?_⟩
  subst hpe
  by_cases h : (p.1 == t) = true <;> simp [h]

lemma dictLookup_mem (acc : List (ℚ × String)) (t : ℚ) (v : String) :
    dictLookup acc t = some v → t ∈ acc.map Prod.fst := by
  unfold dictLookup
  cases hf : acc.find? (fun p => p.1 == t) with
  | none => intro h; exact absurd h (by simp)
  | some p =>
    intro _
    have hm := List.mem_of_find?_eq_some hf
    have hp := List.find?_some hf
    simp only [beq_iff_eq] at hp
    exact List.mem_map.mpr ⟨p, hm, hp⟩

lemma searchFold_keys :
    ∀ (ls : List LogLine) (mindiff prev : ℚ) (acc : List (ℚ × String)) (t : ℚ),
      t ∈ (searchFold mindiff prev acc ls).map Prod.fst ↔
        t ∈ acc.map Prod.fst ∨ t ∈ lineAcceptTimes mindiff prev (ls.map LogLine.ts) := by
  intro ls
  induction ls with
  | nil => intro mindiff prev acc t; simp [searchFold, lineAcceptTimes]
  | cons l ls ih =>
    intro mindiff prev acc t
    rw [List.map_cons, searchFold_cons, lineAcceptTimes_cons]
    by_cases hacc : mindiff ≤ l.ts - prev
    · rw [if_pos hacc, if_pos hacc]
      cases hl : dictLookup acc l.ts with
      | none =>
        dsimp only
        rw [ih]
        unfold dictInsert
        simp only [List.map_append, List.map_cons, List.map_nil, List.mem_append,
          List.mem_singleton, List.mem_cons]
        tauto
      | some v =>
        have hmem := dictLookup_mem acc l.ts v hl
        cases hc : l.cont with
        | some extra =>
          dsimp only
          rw [ih, dictAppendAt_fst]
          simp only [List.mem_cons]
          constructor
          · rintro (h | h)
            exacts [Or.inl h, Or.inr (Or.inr h)]
          · rintro (h | h | h)
            exacts [Or.inl h, Or.inl (h ▸ hmem), Or.inr h]
        | none =>
          dsimp only
          rw [ih]
          simp only [List.mem_cons]
          constructor
          · rintro (h | h)
            exacts [Or.inl h, Or.inr (Or.inr h)]
          · rintro (h | h | h)
            exacts [Or.inl h, Or.inl (h ▸ hmem), Or.inr h]
    · rw [if_neg hacc, if_neg hacc, ih]

/-- Any two entries of the accumulated dict lie at least `mindiff` apart. -/
def keysApart (mindiff : ℚ) (acc : List (ℚ × String)) : Prop :=
  ∀ p ∈ acc, ∀ q ∈ acc, p.1 ≠ q.1 → mindiff ≤ |p.1 - q.1|

lemma keysApart_insert (mindiff prev t : ℚ) (acc : List (ℚ × String)) (s : String)
    (hbound : ∀ k ∈ acc.map Prod.fst, k ≤ prev)
    (hstep : mindiff ≤ t - prev)
    (hap : keysApart mindiff acc) :
    keysApart mindiff (dictInsert acc t s) := by
  intro p hp q hq hne
  unfold dictInsert at hp hq
  rcases List.mem_append.mp hp with hp | hp <;>
    rcases List.mem_append.mp hq with hq | hq
  · exact hap p hp q hq hne
  · rw [List.mem_singleton] at hq
    subst hq
    have hple : p.1 ≤ prev := hbound p.1 (List.mem_map.mpr ⟨p, hp, rfl⟩)
    show mindiff ≤ |p.1 - t|
    rcases le_or_lt 0 (t - p.1) with h0 | h0
    · rw [abs_sub_comm, abs_of_nonneg h0]
      linarith
    · exact le_trans (by linarith) (abs_nonneg _)
  · rw [List.mem_singleton] at hp
    subst hp
    have hqle : q.1 ≤ prev := hbound q.1 (List.mem_map.mpr ⟨q, hq, rfl⟩)
    show mindiff ≤ |t - q.1|
    rcases le_or_lt 0 (t - q.1) with h0 | h0
    · rw [abs_of_nonneg h0]
      linarith
    · exact le_trans (by linarith) (abs_nonneg _)
  · rw [List.mem_singleton] at hp hq
    subst hp
    subst hq
    exact absurd rfl hne

lemma keysApart_appendAt (mindiff t : ℚ) (e : String) (acc : List (ℚ × String))
    (hap : keysApart mindiff acc) : keysApart mindiff (dictAppendAt acc t e) := by
  intro p hp q hq hne
  obtain ⟨p', hp', hpe⟩ := mem_dictAppendAt acc t e p hp
  obtain ⟨q', hq', hqe⟩ := mem_dictAppendAt acc t e q hq
  rw [← hpe, ← hqe]
  exact hap p' hp' q' hq' (by rw [hpe, hqe]; exact hne)

lemma searchFold_keysApart :
    ∀ (ls : List LogLine) (mindiff prev : ℚ) (acc : List (ℚ × String)),
      List.Chain (· ≤ ·) prev (ls.map LogLine.ts) →
      (∀ k ∈ acc.map Prod.fst, k ≤ prev) →
      keysApart mindiff acc →
      keysApart mindiff (searchFold mindiff prev acc ls) := by
  intro ls
  induction ls with
  | nil => intro mindiff prev acc _ _ hap; exact hap
  | cons l ls ih =>
    intro mindiff prev acc hchain hbound hap
    rw [List.map_cons, List.chain_cons] at hchain
    obtain ⟨hpl, hchain2⟩ := hchain
    rw [searchFold_cons]
    by_cases hacc : mindiff ≤ l.ts - prev
    · rw [if_pos hacc]
      cases hl : dictLookup acc l.ts with
      | none =>
        dsimp only
        refine ih mindiff l.ts _ hchain2 ?_
          (keysApart_insert mindiff prev l.ts acc l.stripped hbound hacc hap)
        intro k hk
        unfold dictInsert at hk
        rw [List.map_append] at hk
        rcases List.mem_append.mp hk with hk | hk
        · exact le_trans (hbound k hk) hpl
        · rw [List.map_cons, List.map_nil, List.mem_singleton] at hk
          subst hk
          rfl
      | some v =>
        cases hc : l.cont with
        | some extra =>
          dsimp only
          refine ih mindiff l.ts _ hchain2 ?_
            (keysApart_appendAt mindiff l.ts extra acc hap)
          intro k hk
          rw [dictAppendAt_fst] at hk
          exact le_trans (hbound k hk) hpl
        | none =>
          dsimp only
          exact ih mindiff l.ts acc hchain2
            (fun k hk => le_trans (hbound k hk) hpl) hap
    · rw [if_neg hacc]
      exact ih mindiff l.ts acc hchain2
        (fun k hk => le_trans (hbound k hk) hpl) hap

/-- C3 (amended): the search accepts a line exactly when its timestamp
differs from the IMMEDIATELY PRECEDING input line's timestamp (accepted or
not; initially `0`) by at least `mindiff` — the code updates `prev` on every
line.  Consequently, when the input timestamps are nondecreasing starting
from at least `0` (epoch timestamps), any two accepted entries' timestamps
differ by at least `mindiff`; for out-of-order input that bound fails (see
the counterexample). -/
theorem c3_search_amended :
    (∀ (mindiff : ℚ) (lines : List LogLine) (t : ℚ),
      t ∈ (searchFold mindiff 0 [] lines).map Prod.fst ↔
        t ∈ lineAcceptTimes mindiff 0 (lines.map LogLine.ts)) ∧
    (∀ (mindiff : ℚ) (lines : List LogLine),
      List.Chain (· ≤ ·) 0 (lines.map LogLine.ts) →
      ∀ p ∈ searchFold mindiff 0 [] lines, ∀ q ∈ searchFold mindiff 0 [] lines,
        p.1 ≠ q.1 → mindiff ≤ |p.1 - q.1|) := by
  constructor
  · intro mindiff lines t
    rw [searchFold_keys lines mindiff 0 [] t]
    simp
  · intro mindiff lines hchain
    exact searchFold_keysApart lines mindiff 0 [] hchain (by simp)
      (fun p hp => absurd hp (List.not_mem_nil p))

/-- C3 counterexample: with `mindiff = 2` and timestamps `100, 101, 102`,
the code accepts only `100`, while the claim's previous-ACCEPTED rule would
accept `100` and `102`; with `mindiff = 5` and out-of-order timestamps
`110, 102, 111` the code accepts `110` and `111`, which differ by only `1`,
refuting the claim's pairwise-`mindiff` consequence as stated. -/
theorem c3_counterexample :
    (searchFold 2 0 [] [⟨100, "a", none⟩, ⟨101, "b", none⟩,
      ⟨102, "c", none⟩]).map Prod.fst = [100] ∧
    specAcceptTimes 2 0 [100, 101, 102] = [100, 102] ∧
    (searchFold 2 0 [] [⟨100, "a", none⟩, ⟨101, "b", none⟩,
      ⟨102, "c", none⟩]).map Prod.fst ≠ specAcceptTimes 2 0 [100, 101, 102] ∧
    (searchFold 5 0 [] [⟨110, "d", none⟩, ⟨102, "e", none⟩,
      ⟨111, "f", none⟩]).map Prod.fst = [110, 111] ∧
    ¬ ((5 : ℚ) ≤ |(110 : ℚ) - 111|) := by
  refine ⟨by decide, by decide, by decide, by decide, ?_⟩
  rw [show (110 : ℚ) - 111 = -1 by norm_num, abs_neg, abs_one]
  norm_num

/-- C3 witness: the amended theorem applied to the two-line stream with
timestamps `100` and `105` and `mindiff = 1`. -/
theorem c3_witness :
    ((100 : ℚ) ∈ (searchFold 1 0 [] [⟨100, "a", none⟩,
        ⟨105, "b", none⟩]).map Prod.fst ↔
      (100 : ℚ) ∈ lineAcceptTimes 1 0 [100, 105]) ∧
    (1 : ℚ) ≤ |(100 : ℚ) - 105| := by
  constructor
  · exact c3_search_amended.1 1 [⟨100, "a", none⟩, ⟨105, "b", none⟩] 100
  · exact c3_search_amended.2 1 [⟨100, "a", none⟩, ⟨105, "b", none⟩]
      (by norm_num [List.chain_cons])
      (100, "a") (by decide) (105, "b") (by decide) (by decide)
